import Mathlib

/-!
Verification of the coffee-shop backend's sale transaction processor.

The development shallowly embeds:
* the four tables (`customers`, `products`, `sales`, `sale_items`) with their
  CHECK constraints (migrations 002, 004, 005, 006);
* the plpgsql function `process_sale`
  (src/database/migrations/007_create_process_sale_function.sql);
* the service layer `createSale` (src/src/modules/sales/sales.service.ts)
  and the `AppError` taxonomy (src/src/shared/utils/AppError.ts);
* the catalog mutations `updateProduct` / `deleteProduct`
  (products service) as far as they touch persisted state;
* the zod request schema `createSaleSchema` (sales.schema.ts) and the
  `validate` middleware (validate.middleware.ts).

Modelling conventions:
* `DECIMAL(10, 2)` money values are integer cents (exact fixed-point);
  a value fits the column iff its magnitude is at most 9999999999 cents
  (10 digits of precision, scale 2).  `parseFloat` at the service boundary
  is value-preserving on such values (at most 10 significant decimal digits,
  well under the 15 a double round-trips), so the service returns the cents
  value unchanged.
* UUID row identifiers are abstract `Nat` identifiers; `uuid_generate_v4`
  is a fresh-id counter `nextId`.  Timestamp columns (`created_at`,
  `updated_at`) and the image/description columns are not modelled: no claim
  mentions them.
* plpgsql control flow: a plain `RETURN json_build_object(...)` ends the
  function normally and the enclosing transaction commits whatever the body
  already did; a raised SQL error (constraint violation, numeric overflow)
  is caught by the `EXCEPTION WHEN OTHERS` handler, which rolls back every
  change of the block and returns the generic failure JSON.  This is modelled
  by running the body in `Except SqlErr` and restoring the initial state on
  `error`.
-/

namespace CoffeeShop

/-- A row of the `customers` table (migration 004): id, first/last name,
email (unique business key). -/
structure Customer where
  id : Nat
  firstName : String
  lastName : String
  email : String
deriving Repr, DecidableEq

/-- A row of the `products` table (migration 002): price in cents with
CHECK (price > 0), stock with CHECK (stock >= 0), soft-delete flag. -/
structure Product where
  id : Nat
  name : String
  price : Int
  stock : Int
  isActive : Bool
deriving Repr, DecidableEq

/-- A row of the `sales` table (migration 005): customer reference and
total in cents with CHECK (total >= 0). -/
structure SaleRow where
  id : Nat
  customerId : Nat
  total : Int
deriving Repr, DecidableEq

/-- A row of the `sale_items` table (migration 006): CHECK (quantity > 0),
CHECK (unit_price >= 0), CHECK (subtotal >= 0). -/
structure SaleItemRow where
  id : Nat
  saleId : Nat
  productId : Nat
  quantity : Int
  unitPrice : Int
  subtotal : Int
deriving Repr, DecidableEq

/-- The durable store: the four tables plus the fresh-id counter standing in
for `uuid_generate_v4()`. -/
structure DBState where
  customers : List Customer
  products : List Product
  sales : List SaleRow
  saleItems : List SaleItemRow
  nextId : Nat
deriving Repr, DecidableEq

/-- The composite type `sale_item_input` of migration 007. -/
structure SaleItemInput where
  product_id : Nat
  quantity : Int
deriving Repr, DecidableEq

/-- SQL errors that the statements of `process_sale` can raise; caught by the
function's `EXCEPTION WHEN OTHERS` handler. -/
inductive SqlErr where
  | checkViolation (constraintName : String)
  | numericOverflow
  | notNullViolation (column : String)
deriving Repr, DecidableEq

/-- The `SQLERRM` text of a raised SQL error (shape of the PostgreSQL
message; only its distinctness from the business-rejection messages
matters to the claims). -/
def SqlErr.errm : SqlErr → String
  | .checkViolation c => "new row violates check constraint " ++ "\"" ++ c ++ "\""
  | .numericOverflow => "numeric field overflow"
  | .notNullViolation col =>
      "null value in column " ++ "\"" ++ col ++ "\"" ++ " violates not-null constraint"

/-- A value fits a `DECIMAL(10, 2)` column: at most 10 digits of precision at
scale 2, i.e. magnitude at most 9999999999 cents. -/
def decOK (x : Int) : Bool := decide (x.natAbs ≤ 9999999999)

/-- The JSON value `process_sale` returns: either the success object
(sale_id, customer_id, total) or a failure object carrying a message. -/
inductive SaleResult where
  | success (sale_id customer_id : Nat) (total : Int)
  | failure (message : String)
deriving Repr, DecidableEq

/-- `SELECT id ... FROM customers WHERE email = ...` (step 1 lookup). -/
def findCustomerByEmail (st : DBState) (em : String) : Option Customer :=
  st.customers.find? (fun c => c.email == em)

/-- `SELECT ... FROM products WHERE id = ...` over the products table. -/
def findProduct (ps : List Product) (pid : Nat) : Option Product :=
  ps.find? (fun p => p.id == pid)

/-- The row function of `UPDATE customers SET first_name = .., last_name = ..
WHERE id = cid`. -/
def renameCustomer (fn ln : String) (cid : Nat) (c0 : Customer) : Customer :=
  if c0.id == cid then { c0 with firstName := fn, lastName := ln } else c0

/-- Step 1 of `process_sale`: find the customer by email; insert a new row if
absent, otherwise overwrite the name fields of the existing row.  Returns the
new store and the resolved customer id. -/
def upsertCustomer (st : DBState) (fn ln em : String) : DBState × Nat :=
  match findCustomerByEmail st em with
  | some c =>
      ({ st with customers := st.customers.map (renameCustomer fn ln c.id) }, c.id)
  | none =>
      ({ st with customers := st.customers ++ [⟨st.nextId, fn, ln, em⟩], nextId := st.nextId + 1 },
        st.nextId)

/-- Step 2 of `process_sale`: the validation FOREACH loop.  For each item, in
input order: the product must exist, must be active, and must have stock at
least the requested quantity; the first failure produces the failure message
of the source (naming the offending product, and for insufficient stock the
available and requested quantities). -/
def validateItems (ps : List Product) : List SaleItemInput → Option String
  | [] => none
  | it :: rest =>
    match findProduct ps it.product_id with
    | none => some ("Product not found: " ++ toString it.product_id)
    | some p =>
      if !p.isActive then some ("Product is not active: " ++ p.name)
      else if p.stock < it.quantity then
        some ("Insufficient stock for product: " ++ p.name ++
          " (available: " ++ toString p.stock ++ ", requested: " ++ toString it.quantity ++ ")")
      else validateItems ps rest

/-- Step 3 of `process_sale`: `INSERT INTO sales (customer_id, total)`; the
CHECK (total >= 0) and the DECIMAL(10,2) width are enforced. -/
def insertSale (st : DBState) (cid : Nat) (total : Int) : Except SqlErr (DBState × Nat) :=
  if !decOK total then .error .numericOverflow
  else if total < 0 then .error (.checkViolation "sales_total_check")
  else .ok ({ st with sales := st.sales ++ [⟨st.nextId, cid, total⟩], nextId := st.nextId + 1 },
    st.nextId)

/-- `INSERT INTO sale_items (sale_id, product_id, quantity, unit_price,
subtotal)`; its three CHECK constraints are enforced. -/
def insertSaleItem (st : DBState) (sid pid : Nat) (qty price sub : Int) :
    Except SqlErr DBState :=
  if qty ≤ 0 then .error (.checkViolation "sale_items_quantity_check")
  else if price < 0 then .error (.checkViolation "sale_items_unit_price_check")
  else if sub < 0 then .error (.checkViolation "sale_items_subtotal_check")
  else
    let row : SaleItemRow := ⟨st.nextId, sid, pid, qty, price, sub⟩
    .ok { st with saleItems := st.saleItems ++ [row], nextId := st.nextId + 1 }

/-- `UPDATE products SET stock = stock - qty WHERE id = pid`; raises the
CHECK (stock >= 0) violation if any updated row would go negative. -/
def updateStock (st : DBState) (pid : Nat) (qty : Int) : Except SqlErr DBState :=
  if st.products.any (fun p => p.id == pid && decide (p.stock - qty < 0)) then
    .error (.checkViolation "products_stock_check")
  else
    let ps := st.products.map (fun p => if p.id == pid then { p with stock := p.stock - qty } else p)
    .ok { st with products := ps }

/-- Step 4 of `process_sale`: for each item, in input order, re-read the price,
compute the subtotal, accumulate the running total, insert the sale item, and
decrement the stock.  The DECIMAL(10,2) assignments to `v_subtotal` and
`v_total` can each raise a numeric overflow. -/
def processItems : DBState → Nat → Int → List SaleItemInput → Except SqlErr (DBState × Int)
  | st, _, total, [] => .ok (st, total)
  | st, sid, total, it :: rest =>
    match findProduct st.products it.product_id with
    | none => .error (.notNullViolation "subtotal")
    | some p =>
      let sub := p.price * it.quantity
      if !decOK sub then .error .numericOverflow
      else if !decOK (total + sub) then .error .numericOverflow
      else
        match insertSaleItem st sid it.product_id it.quantity p.price sub with
        | .error e => .error e
        | .ok st1 =>
          match updateStock st1 it.product_id it.quantity with
          | .error e => .error e
          | .ok st2 => processItems st2 sid (total + sub) rest

/-- Step 5 of `process_sale`: `UPDATE sales SET total = ... WHERE id = ...`. -/
def setSaleTotal (st : DBState) (sid : Nat) (total : Int) : Except SqlErr DBState :=
  if !decOK total then .error .numericOverflow
  else if total < 0 then .error (.checkViolation "sales_total_check")
  else
    let ss := st.sales.map (fun s => if s.id == sid then { s with total := total } else s)
    .ok { st with sales := ss }

/-- The body of `process_sale` between `BEGIN` and `EXCEPTION`: customer
upsert, validation loop (whose failures RETURN a failure JSON normally,
keeping the upsert), sale insertion, item loop, total update. -/
def processSaleBody (st : DBState) (fn ln em : String) (items : List SaleItemInput) :
    Except SqlErr (DBState × SaleResult) :=
  match validateItems (upsertCustomer st fn ln em).1.products items with
  | some msg => .ok ((upsertCustomer st fn ln em).1, .failure msg)
  | none =>
    match insertSale (upsertCustomer st fn ln em).1 (upsertCustomer st fn ln em).2 0 with
    | .error e => .error e
    | .ok (st2, sid) =>
      match processItems st2 sid 0 items with
      | .error e => .error e
      | .ok (st3, total) =>
        match setSaleTotal st3 sid total with
        | .error e => .error e
        | .ok st4 => .ok (st4, .success sid (upsertCustomer st fn ln em).2 total)

/-- The plpgsql function `process_sale` of migration 007.  A normal RETURN
commits the body's effects (including a validation-failure RETURN); a raised
SQL error reaches `EXCEPTION WHEN OTHERS`, which rolls the whole block back
and returns the generic `Transaction failed` JSON. -/
def process_sale (st : DBState) (fn ln em : String) (items : List SaleItemInput) :
    DBState × SaleResult :=
  match processSaleBody st fn ln em items with
  | .ok r => r
  | .error e => (st, .failure ("Transaction failed: " ++ e.errm))

/-- Customer descriptor of a sale request (`saleData.customer`). -/
structure CustomerInput where
  firstName : String
  lastName : String
  email : String
deriving Repr, DecidableEq

/-- A line item of a sale request as the service receives it
(`{productId, quantity}`). -/
structure SaleItemRequest where
  productId : Nat
  quantity : Int
deriving Repr, DecidableEq

/-- The service-level `CreateSaleInput` (sales.schema.ts type export). -/
structure CreateSaleInput where
  customer : CustomerInput
  items : List SaleItemRequest
deriving Repr, DecidableEq

/-- A whole request to `process_sale`, used for sequences of calls. -/
structure SaleRequest where
  customer : CustomerInput
  items : List SaleItemInput
deriving Repr, DecidableEq

/-- Run a sequence of sale requests through `process_sale`, threading the
store state. -/
def runSales : DBState → List SaleRequest → DBState
  | st, [] => st
  | st, r :: rs =>
      runSales (process_sale st r.customer.firstName r.customer.lastName r.customer.email r.items).1 rs

/-- Total quantity of product `pid` across a list of sale items. -/
def soldQtyL (pid : Nat) (its : List SaleItemRow) : Int :=
  ((its.filter (fun it => it.productId == pid)).map SaleItemRow.quantity).sum

/-- Total quantity of product `pid` across all persisted sale items. -/
def soldQty (st : DBState) (pid : Nat) : Int :=
  soldQtyL pid st.saleItems

/-- The conserved quantity of stock accounting: current stock of the product
row plus everything ever sold of it, `none` when no such product exists. -/
def netStock (ps : List Product) (its : List SaleItemRow) (pid : Nat) : Option Int :=
  (findProduct ps pid).map (fun p => p.stock + soldQtyL pid its)

/-- The `AppError` of src/src/shared/utils/AppError.ts: HTTP status, machine
code, human message, operational flag. -/
structure AppError where
  statusCode : Nat
  code : String
  message : String
  isOperational : Bool
deriving Repr, DecidableEq

/-- `AppError.badRequest`: 400 / BAD_REQUEST. -/
def AppError.badRequest (message : String) : AppError :=
  ⟨400, "BAD_REQUEST", message, true⟩

/-- `AppError.internal`: 500 / INTERNAL_ERROR. -/
def AppError.internal (message : String) : AppError :=
  ⟨500, "INTERNAL_ERROR", message, false⟩

/-- `AppError.validation`: 422 / VALIDATION_ERROR. -/
def AppError.validation (message : String) : AppError :=
  ⟨422, "VALIDATION_ERROR", message, true⟩

/-- `AppError.notFound`: 404 / NOT_FOUND. -/
def AppError.notFound (message : String) : AppError :=
  ⟨404, "NOT_FOUND", message, true⟩

/-- The success payload of the service `createSale`
(`{saleId, customerId, total}`).  `parseFloat(result.total)` is modelled as
the identity on the cents value: a DECIMAL(10,2) literal has at most 10
significant digits and round-trips through a double unchanged. -/
structure CreateSaleOk where
  saleId : Nat
  customerId : Nat
  total : Int
deriving Repr, DecidableEq

/-- `createSale` of sales.service.ts: map the items to `sale_item_input`
shape, call the `process_sale` RPC, turn a `success: false` JSON into
`AppError.badRequest(result.message)`, and otherwise return
`{saleId, customerId, total}`. -/
def createSale (st : DBState) (inp : CreateSaleInput) : DBState × Except AppError CreateSaleOk :=
  match process_sale st inp.customer.firstName inp.customer.lastName inp.customer.email
      (inp.items.map (fun it => SaleItemInput.mk it.productId it.quantity)) with
  | (st1, .success sid cid tot) => (st1, .ok ⟨sid, cid, tot⟩)
  | (st1, .failure msg) => (st1, .error (AppError.badRequest msg))

instance {ε α : Type} [DecidableEq ε] [DecidableEq α] : DecidableEq (Except ε α) := fun a b =>
  match a, b with
  | .ok x, .ok y => if h : x = y then .isTrue (by rw [h]) else .isFalse (by simp [h])
  | .error x, .error y => if h : x = y then .isTrue (by rw [h]) else .isFalse (by simp [h])
  | .ok _, .error _ => .isFalse (by simp)
  | .error _, .ok _ => .isFalse (by simp)

/-- The rejection `createSale` produces when the RPC call itself errors
(transport / infrastructure failure): `AppError.internal`. -/
def createSaleRpcFailure : AppError := AppError.internal "Failed to process sale"

/-- `UpdateProductInput` of products.schema.ts (all fields optional; the
image and description columns are not modelled). -/
structure UpdateProductInput where
  name : Option String
  price : Option Int
  stock : Option Int
deriving Repr, DecidableEq

/-- Spread of the update payload over a product row
(`{...productData, updated_at}` applied by `.update(...)`). -/
def applyUpdate (u : UpdateProductInput) (p : Product) : Product :=
  { p with
    name := u.name.getD p.name
    price := u.price.getD p.price
    stock := u.stock.getD p.stock }

/-- `getProductById` of the products service: selects by id with
`is_active = true`, 404 otherwise. -/
def getProductById (st : DBState) (pid : Nat) : Except AppError Product :=
  match st.products.find? (fun p => p.id == pid && p.isActive) with
  | none => .error (AppError.notFound "Product not found")
  | some p => .ok p

/-- A product row satisfies the table's CHECK constraints and column width. -/
def productRowOK (p : Product) : Bool :=
  decide (0 < p.price) && decide (0 ≤ p.stock) && decOK p.price

/-- `updateProduct` of the products service: check existence via
`getProductById`, then `UPDATE products SET ... WHERE id = pid`; a CHECK
violation surfaces as `AppError.internal`.  The formatted-row return value is
not modelled; the claims concern only the state effect. -/
def updateProduct (st : DBState) (pid : Nat) (u : UpdateProductInput) :
    DBState × Except AppError Unit :=
  match getProductById st pid with
  | .error e => (st, .error e)
  | .ok _ =>
    if st.products.any (fun p => p.id == pid && !productRowOK (applyUpdate u p)) then
      (st, .error (AppError.internal "Failed to update product"))
    else
      let ps := st.products.map (fun p => if p.id == pid then applyUpdate u p else p)
      ({ st with products := ps }, .ok ())

/-- `deleteProduct` of the products service: soft delete by clearing
`is_active`. -/
def deleteProduct (st : DBState) (pid : Nat) : DBState × Except AppError Unit :=
  match getProductById st pid with
  | .error e => (st, .error e)
  | .ok _ =>
    let ps := st.products.map (fun p => if p.id == pid then { p with isActive := false } else p)
    ({ st with products := ps }, .ok ())

/-- A request line item as received over HTTP, after zod's number coercion:
`productId` a string, `quantity` a number (a rational models the coerced
value, so a non-integer quantity is expressible). -/
structure RawSaleItem where
  productId : String
  quantity : Rat
deriving Repr, DecidableEq

/-- The raw customer object of the request body. -/
structure RawCustomer where
  firstName : String
  lastName : String
  email : String
deriving Repr, DecidableEq

/-- The raw request body of POST /sales. -/
structure RawCreateSale where
  customer : RawCustomer
  items : List RawSaleItem
deriving Repr, DecidableEq

/-- Hexadecimal digit, either case. -/
def isHexDigit (c : Char) : Bool :=
  c.isDigit || ('a' ≤ c && c ≤ 'f') || ('A' ≤ c && c ≤ 'F')

/-- `z.string().uuid()`: the 8-4-4-4-12 hex-with-hyphens shape. -/
def isUuid (s : String) : Bool :=
  let cs := s.toList
  cs.length == 36 &&
    (List.range 36).all (fun i =>
      if i == 8 || i == 13 || i == 18 || i == 23 then cs.getD i ' ' == '-'
      else isHexDigit (cs.getD i ' '))

/-- `saleItemSchema`: uuid product id; quantity an integer, positive, at
most 100. -/
def saleItemOk (it : RawSaleItem) : Bool :=
  isUuid it.productId && it.quantity.den == 1 &&
    decide (0 < it.quantity) && decide (it.quantity ≤ 100)

/-- Characters zod's email regex allows in the local part. -/
def emailLocalChar (c : Char) : Bool :=
  c.isAlphanum || c == '_' || c == Char.ofNat 39 || c == '+' || c == '-' || c == '.'

/-- Characters zod's email regex allows as the final local-part character. -/
def emailLocalLastChar (c : Char) : Bool :=
  c.isAlphanum || c == '_' || c == '+' || c == '-'

/-- No two consecutive dots (the regex's negative lookahead). -/
def noDoubleDot : List Char → Bool
  | [] => true
  | [_] => true
  | a :: b :: rest => !(a == '.' && b == '.') && noDoubleDot (b :: rest)

/-- Local part of an email: non-empty, allowed characters, does not start
with a dot, restricted final character. -/
def emailLocalOk (cs : List Char) : Bool :=
  match cs with
  | [] => false
  | c :: _ => c != '.' && cs.all emailLocalChar && emailLocalLastChar (cs.getLastD ' ')

/-- A domain label: non-empty, alphanumeric first character, then
alphanumeric or hyphen. -/
def domainLabelOk (cs : List Char) : Bool :=
  match cs with
  | [] => false
  | c :: rest => c.isAlphanum && rest.all (fun d => d.isAlphanum || d == '-')

/-- Final domain label: at least two letters. -/
def tldOk (cs : List Char) : Bool :=
  decide (2 ≤ cs.length) && cs.all Char.isAlpha

/-- Split a character list on a separator character. -/
def splitOnChar (c : Char) : List Char → List (List Char)
  | [] => [[]]
  | a :: rest =>
    let r := splitOnChar c rest
    if a == c then [] :: r
    else
      match r with
      | [] => [[a]]
      | h :: t => (a :: h) :: t

/-- Domain of an email: one or more labels then a letters-only final label. -/
def emailDomainOk (cs : List Char) : Bool :=
  let parts := splitOnChar '.' cs
  decide (2 ≤ parts.length) && parts.dropLast.all domainLabelOk && tldOk (parts.getLastD [])

/-- `z.string().email()` (transcription of zod v3's email regex). -/
def emailOk (s : String) : Bool :=
  noDoubleDot s.toList &&
    match splitOnChar '@' s.toList with
    | [lp, dp] => emailLocalOk lp && emailDomainOk dp
    | _ => false

/-- Customer object checks of `createSaleSchema`: name lengths 2..50 and a
well-formed email. -/
def customerOk (c : RawCustomer) : Bool :=
  decide (2 ≤ c.firstName.length) && decide (c.firstName.length ≤ 50) &&
    decide (2 ≤ c.lastName.length) && decide (c.lastName.length ≤ 50) &&
    emailOk c.email

/-- `createSaleSchema` of sales.schema.ts: customer checks plus a 1..50 item
list whose members all satisfy `saleItemSchema`. -/
def createSaleSchemaOk (r : RawCreateSale) : Bool :=
  customerOk r.customer && decide (1 ≤ r.items.length) &&
    decide (r.items.length ≤ 50) && r.items.all saleItemOk

/-- The `validate(schema)` middleware of validate.middleware.ts: run the
schema on the body; on failure reply 422 VALIDATION_ERROR without invoking
the downstream handler; on success invoke it. -/
def validateBody {α : Type} (schemaOk : RawCreateSale → Bool)
    (handler : DBState → RawCreateSale → DBState × Except AppError α)
    (st : DBState) (raw : RawCreateSale) : DBState × Except AppError α :=
  if schemaOk raw then handler st raw
  else (st, .error (AppError.validation "Validation failed for body"))

/-! ### Structural lemmas about the primitive store operations -/

theorem upsertCustomer_products (st : DBState) (fn ln em : String) :
    (upsertCustomer st fn ln em).1.products = st.products := by
  unfold upsertCustomer
  cases findCustomerByEmail st em <;> rfl

theorem upsertCustomer_sales (st : DBState) (fn ln em : String) :
    (upsertCustomer st fn ln em).1.sales = st.sales := by
  unfold upsertCustomer
  cases findCustomerByEmail st em <;> rfl

theorem upsertCustomer_saleItems (st : DBState) (fn ln em : String) :
    (upsertCustomer st fn ln em).1.saleItems = st.saleItems := by
  unfold upsertCustomer
  cases findCustomerByEmail st em <;> rfl

theorem upsertCustomer_nextId (st : DBState) (fn ln em : String) :
    st.nextId ≤ (upsertCustomer st fn ln em).1.nextId := by
  unfold upsertCustomer
  cases findCustomerByEmail st em
  · exact Nat.le_succ _
  · exact Nat.le_refl _

theorem insertSale_ok {st : DBState} {cid : Nat} {total : Int} {st1 : DBState} {sid : Nat}
    (h : insertSale st cid total = .ok (st1, sid)) :
    st1.customers = st.customers ∧ st1.products = st.products ∧ st1.saleItems = st.saleItems ∧
      st1.sales = st.sales ++ [⟨st.nextId, cid, total⟩] ∧ st1.nextId = st.nextId + 1 ∧
      sid = st.nextId := by
  unfold insertSale at h
  split at h
  · simp at h
  · split at h
    · simp at h
    · cases h
      exact ⟨rfl, rfl, rfl, rfl, rfl, rfl⟩

theorem insertSaleItem_ok {st : DBState} {sid pid : Nat} {qty price sub : Int} {st1 : DBState}
    (h : insertSaleItem st sid pid qty price sub = .ok st1) :
    st1.customers = st.customers ∧ st1.products = st.products ∧ st1.sales = st.sales ∧
      st1.saleItems = st.saleItems ++ [⟨st.nextId, sid, pid, qty, price, sub⟩] ∧
      st1.nextId = st.nextId + 1 := by
  unfold insertSaleItem at h
  split at h
  · simp at h
  · split at h
    · simp at h
    · split at h
      · simp at h
      · cases h
        exact ⟨rfl, rfl, rfl, rfl, rfl⟩

theorem updateStock_ok {st : DBState} {pid : Nat} {qty : Int} {st1 : DBState}
    (h : updateStock st pid qty = .ok st1) :
    st1.customers = st.customers ∧ st1.sales = st.sales ∧ st1.saleItems = st.saleItems ∧
      st1.nextId = st.nextId ∧
      st1.products = st.products.map
        (fun p => if p.id == pid then { p with stock := p.stock - qty } else p) ∧
      (∀ p ∈ st.products, p.id = pid → 0 ≤ p.stock - qty) := by
  unfold updateStock at h
  split at h
  · simp at h
  · rename_i hguard
    cases h
    refine ⟨rfl, rfl, rfl, rfl, rfl, ?_⟩
    intro p hp hid
    by_contra hneg
    exact hguard (by
      rw [List.any_eq_true]
      exact ⟨p, hp, by simp [hid]; omega⟩)

theorem setSaleTotal_ok {st : DBState} {sid : Nat} {total : Int} {st1 : DBState}
    (h : setSaleTotal st sid total = .ok st1) :
    st1.customers = st.customers ∧ st1.products = st.products ∧ st1.saleItems = st.saleItems ∧
      st1.nextId = st.nextId ∧
      st1.sales = st.sales.map (fun s => if s.id == sid then { s with total := total } else s) := by
  unfold setSaleTotal at h
  split at h
  · simp at h
  · split at h
    · simp at h
    · cases h
      exact ⟨rfl, rfl, rfl, rfl, rfl⟩

theorem findProduct_map_adjust (ps : List Product) (f : Product → Product)
    (hid : ∀ p, (f p).id = p.id) (pid : Nat) :
    findProduct (ps.map f) pid = (findProduct ps pid).map f := by
  unfold findProduct
  rw [List.find?_map]
  have hpred : ((fun p : Product => p.id == pid) ∘ f) = (fun p : Product => p.id == pid) := by
    funext p
    simp [Function.comp, hid]
  rw [hpred]

theorem soldQtyL_append (pid : Nat) (a b : List SaleItemRow) :
    soldQtyL pid (a ++ b) = soldQtyL pid a + soldQtyL pid b := by
  simp [soldQtyL, List.filter_append]

theorem itemStep_netStock {st st1 st2 : DBState} {sid pid0 : Nat} {qty price sub : Int}
    (h1 : insertSaleItem st sid pid0 qty price sub = .ok st1)
    (h2 : updateStock st1 pid0 qty = .ok st2) (pid : Nat) :
    netStock st2.products st2.saleItems pid = netStock st.products st.saleItems pid := by
  obtain ⟨-, hp1, -, hi1, -⟩ := insertSaleItem_ok h1
  obtain ⟨-, -, hi2, -, hp2, -⟩ := updateStock_ok h2
  rw [netStock, netStock, hp2, hp1, hi2, hi1]
  rw [findProduct_map_adjust _ _ (fun p => by by_cases h : p.id == pid0 <;> simp [h])]
  cases hfp : findProduct st.products pid with
  | none => rfl
  | some p =>
    have hpid : p.id = pid := by
      have := List.find?_some hfp
      simpa using this
    simp only [Option.map_some']
    rw [soldQtyL_append]
    by_cases hcase : pid0 = pid
    · subst hcase
      simp [soldQtyL, hpid]
    · have : ¬(pid0 == pid) = true := by simp [hcase]
      simp [soldQtyL, hpid, hcase, this]
      congr 1
      simp [Ne.symm hcase]

theorem itemStep_nonneg {st st1 st2 : DBState} {sid pid0 : Nat} {qty price sub : Int}
    (h1 : insertSaleItem st sid pid0 qty price sub = .ok st1)
    (h2 : updateStock st1 pid0 qty = .ok st2)
    (hnn : ∀ p ∈ st.products, 0 ≤ p.stock) :
    ∀ p ∈ st2.products, 0 ≤ p.stock := by
  obtain ⟨-, hp1, -, -, -⟩ := insertSaleItem_ok h1
  obtain ⟨-, -, -, -, hp2, hguard⟩ := updateStock_ok h2
  rw [hp2, hp1]
  rw [hp1] at hguard
  intro q hq
  rw [List.mem_map] at hq
  obtain ⟨p, hp, rfl⟩ := hq
  by_cases hid : p.id == pid0
  · simp only [hid, if_true]
    exact hguard p hp (by simpa using hid)
  · simp only [hid, if_false]
    exact hnn p hp

theorem processItems_spec (items : List SaleItemInput) :
    ∀ (st : DBState) (sid : Nat) (total : Int) (st' : DBState) (total' : Int),
    processItems st sid total items = .ok (st', total') →
    st'.customers = st.customers ∧ st'.sales = st.sales ∧ st.nextId ≤ st'.nextId ∧
    (∃ newIts, st'.saleItems = st.saleItems ++ newIts ∧
      (∀ it ∈ newIts, it.saleId = sid ∧ it.subtotal = it.quantity * it.unitPrice) ∧
      total' = total + (newIts.map SaleItemRow.subtotal).sum) ∧
    (∀ pid, netStock st'.products st'.saleItems pid = netStock st.products st.saleItems pid) ∧
    ((∀ p ∈ st.products, 0 ≤ p.stock) → ∀ p ∈ st'.products, 0 ≤ p.stock) := by
  induction items with
  | nil =>
    intro st sid total st' total' h
    simp only [processItems] at h
    cases h
    exact ⟨rfl, rfl, Nat.le_refl _, ⟨[], by simp, by simp, by simp⟩, fun _ => rfl, fun h => h⟩
  | cons it rest ih =>
    intro st sid total st' total' h
    simp only [processItems] at h
    split at h
    · simp at h
    · rename_i p hfp
      split at h
      · simp at h
      · split at h
        · simp at h
        · split at h
          · simp at h
          · rename_i st1 hins
            split at h
            · simp at h
            · rename_i st2 hupd
              obtain ⟨hc, hs, hn, ⟨newIts, hni, hniP, hniT⟩, hnet, hnn⟩ :=
                ih st2 sid (total + p.price * it.quantity) st' total' h
              obtain ⟨hc1, hp1, hs1, hi1, hn1⟩ := insertSaleItem_ok hins
              obtain ⟨hc2, hs2, hi2, hn2, hp2, -⟩ := updateStock_ok hupd
              refine ⟨?_, ?_, ?_, ?_, ?_, ?_⟩
              · rw [hc, hc2, hc1]
              · rw [hs, hs2, hs1]
              · omega
              · refine ⟨⟨st.nextId, sid, it.product_id, it.quantity, p.price,
                  p.price * it.quantity⟩ :: newIts, ?_, ?_, ?_⟩
                · rw [hni, hi2, hi1]
                  simp
                · intro r hr
                  rw [List.mem_cons] at hr
                  rcases hr with hr | hr
                  · subst hr
                    exact ⟨rfl, by simp [Int.mul_comm]⟩
                  · exact hniP r hr
                · rw [hniT]
                  simp
                  ring
              · intro pid
                rw [hnet pid, itemStep_netStock hins hupd pid]
              · intro hnn0
                exact hnn (itemStep_nonneg hins hupd hnn0)

theorem processSaleBody_ok {st : DBState} {fn ln em : String} {items : List SaleItemInput}
    {st1 : DBState} {res : SaleResult}
    (h : processSaleBody st fn ln em items = .ok (st1, res)) :
    (∀ pid, netStock st1.products st1.saleItems pid = netStock st.products st.saleItems pid) ∧
    ((∀ p ∈ st.products, 0 ≤ p.stock) → ∀ p ∈ st1.products, 0 ≤ p.stock) ∧
    st1.customers = (upsertCustomer st fn ln em).1.customers := by
  unfold processSaleBody at h
  split at h
  · cases h
    rw [upsertCustomer_products, upsertCustomer_saleItems]
    exact ⟨fun _ => rfl, fun h => h, rfl⟩
  · split at h
    · simp at h
    · rename_i stI sid hins
      split at h
      · simp at h
      · rename_i stM tot hloop
        split at h
        · simp at h
        · rename_i hset
          cases h
          obtain ⟨hcI, hpI, hiI, -, -, -⟩ := insertSale_ok hins
          obtain ⟨hcM, -, -, -, hnetM, hnnM⟩ := processItems_spec _ _ _ _ _ _ hloop
          obtain ⟨hcT, hpT, hiT, -, -⟩ := setSaleTotal_ok hset
          refine ⟨?_, ?_, ?_⟩
          · intro pid
            rw [hpT, hiT, hnetM pid, hpI, hiI, upsertCustomer_products, upsertCustomer_saleItems]
          · intro hnn
            rw [hpT]
            refine hnnM ?_
            rw [hpI, upsertCustomer_products]
            exact hnn
          · rw [hcT, hcM, hcI]

theorem process_sale_netStock (st : DBState) (fn ln em : String) (items : List SaleItemInput)
    (pid : Nat) :
    netStock (process_sale st fn ln em items).1.products
        (process_sale st fn ln em items).1.saleItems pid
      = netStock st.products st.saleItems pid := by
  unfold process_sale
  cases hb : processSaleBody st fn ln em items with
  | ok r =>
    obtain ⟨s1, res⟩ := r
    exact (processSaleBody_ok hb).1 pid
  | error e => rfl

theorem process_sale_nonneg (st : DBState) (fn ln em : String) (items : List SaleItemInput)
    (hnn : ∀ p ∈ st.products, 0 ≤ p.stock) :
    ∀ p ∈ (process_sale st fn ln em items).1.products, 0 ≤ p.stock := by
  unfold process_sale
  cases hb : processSaleBody st fn ln em items with
  | ok r =>
    obtain ⟨s1, res⟩ := r
    exact (processSaleBody_ok hb).2.1 hnn
  | error e => exact hnn

theorem process_sale_valFail {st : DBState} {fn ln em : String} {items : List SaleItemInput}
    {msg : String}
    (h : validateItems (upsertCustomer st fn ln em).1.products items = some msg) :
    process_sale st fn ln em items = ((upsertCustomer st fn ln em).1, .failure msg) := by
  unfold process_sale processSaleBody
  simp only [h]

theorem process_sale_success_inv {st st' : DBState} {fn ln em : String}
    {items : List SaleItemInput} {sid cid : Nat} {tot : Int}
    (h : process_sale st fn ln em items = (st', .success sid cid tot)) :
    ∃ stI stM,
      validateItems (upsertCustomer st fn ln em).1.products items = none ∧
      insertSale (upsertCustomer st fn ln em).1 (upsertCustomer st fn ln em).2 0
        = .ok (stI, sid) ∧
      processItems stI sid 0 items = .ok (stM, tot) ∧
      setSaleTotal stM sid tot = .ok st' ∧
      cid = (upsertCustomer st fn ln em).2 := by
  have hbody : processSaleBody st fn ln em items = .ok (st', .success sid cid tot) := by
    unfold process_sale at h
    cases hb : processSaleBody st fn ln em items with
    | ok r =>
      rw [hb] at h
      obtain ⟨a, b⟩ := r
      simp at h
      rw [h.1, h.2]
    | error e =>
      rw [hb] at h
      simp at h
  unfold processSaleBody at hbody
  split at hbody
  · simp at hbody
  · rename_i hval
    split at hbody
    · simp at hbody
    · rename_i stI sid0 hins
      split at hbody
      · simp at hbody
      · rename_i stM tot0 hloop
        split at hbody
        · simp at hbody
        · rename_i stT hset
          simp at hbody
          obtain ⟨rfl, rfl, rfl, rfl⟩ := hbody
          exact ⟨stI, stM, hval, hins, hloop, hset, rfl⟩

theorem validateItems_append_ok (ps : List Product) (pre rest2 : List SaleItemInput)
    (hpre : ∀ it ∈ pre, ∃ p, findProduct ps it.product_id = some p ∧
      p.isActive = true ∧ it.quantity ≤ p.stock) :
    validateItems ps (pre ++ rest2) = validateItems ps rest2 := by
  induction pre with
  | nil => rfl
  | cons a t ih =>
    obtain ⟨p, hp, hact, hstock⟩ := hpre a (by simp)
    have hns : ¬(p.stock < a.quantity) := not_lt.mpr hstock
    simp only [List.cons_append, validateItems, hp, hact, hns]
    simp only [Bool.not_true, Bool.false_eq_true, if_false, if_neg hns]
    exact ih (fun it hit => hpre it (by simp [hit]))

theorem renameCustomer_email (fn ln : String) (cid : Nat) (c : Customer) :
    (renameCustomer fn ln cid c).email = c.email := by
  unfold renameCustomer
  by_cases h : c.id == cid <;> simp [h]

theorem renameCustomer_id (fn ln : String) (cid : Nat) (c : Customer) :
    (renameCustomer fn ln cid c).id = c.id := by
  unfold renameCustomer
  by_cases h : c.id == cid <;> simp [h]

theorem upsertCustomer_customers_none {st : DBState} {fn ln em : String}
    (h : findCustomerByEmail st em = none) :
    (upsertCustomer st fn ln em).1.customers
      = st.customers ++ [⟨st.nextId, fn, ln, em⟩] := by
  unfold upsertCustomer
  rw [h]

theorem upsertCustomer_customers_some {st : DBState} {fn ln em : String} {c : Customer}
    (h : findCustomerByEmail st em = some c) :
    (upsertCustomer st fn ln em).1.customers
      = st.customers.map (renameCustomer fn ln c.id) := by
  unfold upsertCustomer
  rw [h]

theorem find_email_map (l : List Customer) (g : Customer → Customer)
    (hem : ∀ c, (g c).email = c.email) (em : String) :
    (l.map g).find? (fun c => c.email == em) = (l.find? (fun c => c.email == em)).map g := by
  rw [List.find?_map]
  have hpred : ((fun c : Customer => c.email == em) ∘ g)
      = (fun c : Customer => c.email == em) := by
    funext c
    simp [Function.comp, hem]
  rw [hpred]

theorem filter_email_map (l : List Customer) (g : Customer → Customer)
    (hem : ∀ c, (g c).email = c.email) (em : String) :
    (l.map g).filter (fun c => c.email == em)
      = (l.filter (fun c => c.email == em)).map g := by
  rw [List.filter_map]
  have hpred : ((fun c : Customer => c.email == em) ∘ g)
      = (fun c : Customer => c.email == em) := by
    funext c
    simp [Function.comp, hem]
  rw [hpred]

theorem filter_eq_singleton_of_find? {α : Type} {p : α → Bool} {l : List α} {c : α}
    (hf : l.find? p = some c) (hlen : (l.filter p).length ≤ 1) : l.filter p = [c] := by
  induction l with
  | nil => simp at hf
  | cons a t ih =>
    by_cases hpa : p a
    · rw [List.find?_cons_of_pos _ hpa] at hf
      cases hf
      rw [List.filter_cons_of_pos hpa] at hlen ⊢
      have : t.filter p = [] := by
        cases hft : t.filter p with
        | nil => rfl
        | cons b u =>
          rw [hft] at hlen
          simp at hlen
      rw [this]
    · rw [List.find?_cons_of_neg _ hpa] at hf
      rw [List.filter_cons_of_neg hpa] at hlen ⊢
      exact ih hf hlen

theorem process_sale_success_customers {st st' : DBState} {fn ln em : String}
    {items : List SaleItemInput} {sid cid : Nat} {tot : Int}
    (h : process_sale st fn ln em items = (st', .success sid cid tot)) :
    st'.customers = (upsertCustomer st fn ln em).1.customers := by
  obtain ⟨stI, stM, hval, hins, hloop, hset, -⟩ := process_sale_success_inv h
  obtain ⟨hcI, -, -, -, -, -⟩ := insertSale_ok hins
  obtain ⟨hcM, -, -, -, -, -⟩ := processItems_spec items stI sid 0 stM tot hloop
  obtain ⟨hcT, -, -, -, -⟩ := setSaleTotal_ok hset
  rw [hcT, hcM, hcI]

theorem runSales_netStock (reqs : List SaleRequest) :
    ∀ (st : DBState) (pid : Nat),
    netStock (runSales st reqs).products (runSales st reqs).saleItems pid
      = netStock st.products st.saleItems pid := by
  induction reqs with
  | nil => intro st pid; rfl
  | cons r rs ih =>
    intro st pid
    simp only [runSales]
    rw [ih, process_sale_netStock]

theorem runSales_nonneg (reqs : List SaleRequest) :
    ∀ (st : DBState), (∀ p ∈ st.products, 0 ≤ p.stock) →
    ∀ p ∈ (runSales st reqs).products, 0 ≤ p.stock := by
  induction reqs with
  | nil => intro st h; exact h
  | cons r rs ih =>
    intro st h
    simp only [runSales]
    exact ih _ (process_sale_nonneg _ _ _ _ _ h)

/-! ### Sample fixtures used by the concrete witnesses -/

/-- An active sample product: id 1, price 5.00, stock 10. -/
def sampleProduct : Product := ⟨1, "Espresso", 500, 10, true⟩

/-- An inactive sample product: id 2, price 7.00, stock 5. -/
def sampleInactive : Product := ⟨2, "Latte", 700, 5, false⟩

/-- A sample store with both products, no customers and no sales. -/
def sampleState : DBState := ⟨[], [sampleProduct, sampleInactive], [], [], 5⟩

/-- A sample request sequence: one committing sale of three espressos, then
one rejected sale of an unknown product. -/
def sampleReqs : List SaleRequest :=
  [⟨⟨"Ann", "Lee", "a@x.com"⟩, [⟨1, 3⟩]⟩, ⟨⟨"Bob", "Roe", "b@x.com"⟩, [⟨7, 1⟩]⟩]

/-! ### The claims -/

/-- C1.  The claim says a sale request failing item validation leaves no
effect at all: no customer row created or updated, no sale, no sale items, no
stock change.  The code refutes the customer part: the plpgsql function
RETURNs the validation-failure JSON without raising, so the customer upsert
performed in step 1 commits.  At the failing input — empty store, request by
Ann Lee (a@x.com) for unknown product 7 — the call is rejected with
`Product not found: 7`, no sale, sale item or product change persists, yet
the newly inserted customer row survives. -/
theorem c1_validation_failure_keeps_customer_upsert :
    (process_sale ⟨[], [], [], [], 0⟩ "Ann" "Lee" "a@x.com" [⟨7, 1⟩]).2
        = .failure ("Product not found: 7")
      ∧ (process_sale ⟨[], [], [], [], 0⟩ "Ann" "Lee" "a@x.com" [⟨7, 1⟩]).1.customers
        = [⟨0, "Ann", "Lee", "a@x.com"⟩]
      ∧ (process_sale ⟨[], [], [], [], 0⟩ "Ann" "Lee" "a@x.com" [⟨7, 1⟩]).1.sales = []
      ∧ (process_sale ⟨[], [], [], [], 0⟩ "Ann" "Lee" "a@x.com" [⟨7, 1⟩]).1.saleItems = []
      ∧ (process_sale ⟨[], [], [], [], 0⟩ "Ann" "Lee" "a@x.com" [⟨7, 1⟩]).1.products = [] := by
  decide

/-- C5.  `process_sale` validates line items in input order; for each item it
checks existence, then the active flag, then stock; the rejection is the
first failing check of the earliest invalid item, names the offending
product, and for insufficient stock reports available vs requested.  Stated
for an arbitrary prefix of fully valid items followed by the first invalid
item. -/
theorem c5_validation_order (st : DBState) (fn ln em : String)
    (pre : List SaleItemInput) (bad : SaleItemInput) (rest : List SaleItemInput)
    (hpre : ∀ it ∈ pre, ∃ p, findProduct st.products it.product_id = some p ∧
      p.isActive = true ∧ it.quantity ≤ p.stock) :
    (findProduct st.products bad.product_id = none →
      (process_sale st fn ln em (pre ++ bad :: rest)).2
        = .failure ("Product not found: " ++ toString bad.product_id)) ∧
    (∀ p, findProduct st.products bad.product_id = some p → p.isActive = false →
      (process_sale st fn ln em (pre ++ bad :: rest)).2
        = .failure ("Product is not active: " ++ p.name)) ∧
    (∀ p, findProduct st.products bad.product_id = some p → p.isActive = true →
      p.stock < bad.quantity →
      (process_sale st fn ln em (pre ++ bad :: rest)).2
        = .failure ("Insufficient stock for product: " ++ p.name ++
            " (available: " ++ toString p.stock ++
            ", requested: " ++ toString bad.quantity ++ ")")) := by
  have hpre' : ∀ it ∈ pre, ∃ p,
      findProduct (upsertCustomer st fn ln em).1.products it.product_id = some p ∧
      p.isActive = true ∧ it.quantity ≤ p.stock := by
    rw [upsertCustomer_products]
    exact hpre
  refine ⟨?_, ?_, ?_⟩
  · intro hnone
    have hv : validateItems (upsertCustomer st fn ln em).1.products (pre ++ bad :: rest)
        = some ("Product not found: " ++ toString bad.product_id) := by
      rw [validateItems_append_ok _ _ _ hpre', upsertCustomer_products]
      simp [validateItems, hnone]
    rw [process_sale_valFail hv]
  · intro p hp hact
    have hv : validateItems (upsertCustomer st fn ln em).1.products (pre ++ bad :: rest)
        = some ("Product is not active: " ++ p.name) := by
      rw [validateItems_append_ok _ _ _ hpre', upsertCustomer_products]
      simp [validateItems, hp, hact]
    rw [process_sale_valFail hv]
  · intro p hp hact hstock
    have hv : validateItems (upsertCustomer st fn ln em).1.products (pre ++ bad :: rest)
        = some ("Insufficient stock for product: " ++ p.name ++
            " (available: " ++ toString p.stock ++
            ", requested: " ++ toString bad.quantity ++ ")") := by
      rw [validateItems_append_ok _ _ _ hpre', upsertCustomer_products]
      simp [validateItems, hp, hact, hstock]
    rw [process_sale_valFail hv]

/-- C5 witness: with product 1 valid and product 2 inactive, the two-item
request (valid first, inactive second) is rejected for the inactive
product. -/
theorem c5_validation_order_witness :
    (process_sale sampleState "Ann" "Lee" "a@x.com" [⟨1, 1⟩, ⟨2, 1⟩]).2
      = .failure ("Product is not active: " ++ sampleInactive.name) :=
  (c5_validation_order sampleState "Ann" "Lee" "a@x.com" [⟨1, 1⟩] ⟨2, 1⟩ []
    (by
      intro it hit
      simp at hit
      subst hit
      exact ⟨sampleProduct, by decide, by decide, by decide⟩)).2.1
    sampleInactive (by decide) (by decide)

/-- C7.  After a sale commits, catalog mutations — `updateProduct` (price or
any field change) and the soft-delete `deleteProduct` — leave the persisted
`sale_items` rows (hence every captured `unitPrice` and `subtotal`) and the
`sales` rows (hence the total) unchanged: the unit price is a frozen
snapshot. -/
theorem c7_price_snapshot (st st' : DBState) (fn ln em : String)
    (items : List SaleItemInput) (sid cid : Nat) (tot : Int)
    (pid : Nat) (u : UpdateProductInput)
    (_hcommit : process_sale st fn ln em items = (st', .success sid cid tot)) :
    (updateProduct st' pid u).1.saleItems = st'.saleItems ∧
    (updateProduct st' pid u).1.sales = st'.sales ∧
    (deleteProduct st' pid).1.saleItems = st'.saleItems ∧
    (deleteProduct st' pid).1.sales = st'.sales := by
  refine ⟨?_, ?_, ?_, ?_⟩
  · unfold updateProduct
    split
    · rfl
    · split <;> rfl
  · unfold updateProduct
    split
    · rfl
    · split <;> rfl
  · unfold deleteProduct
    split <;> rfl
  · unfold deleteProduct
    split <;> rfl

/-- C7 witness: a concrete committed sale followed by a price change to 9.00
and by a soft delete; the sale rows are untouched. -/
theorem c7_price_snapshot_witness :
    (updateProduct (process_sale sampleState "Ann" "Lee" "a@x.com" [⟨1, 3⟩]).1 1
        ⟨none, some 900, none⟩).1.saleItems
      = (process_sale sampleState "Ann" "Lee" "a@x.com" [⟨1, 3⟩]).1.saleItems ∧
    (updateProduct (process_sale sampleState "Ann" "Lee" "a@x.com" [⟨1, 3⟩]).1 1
        ⟨none, some 900, none⟩).1.sales
      = (process_sale sampleState "Ann" "Lee" "a@x.com" [⟨1, 3⟩]).1.sales ∧
    (deleteProduct (process_sale sampleState "Ann" "Lee" "a@x.com" [⟨1, 3⟩]).1 1).1.saleItems
      = (process_sale sampleState "Ann" "Lee" "a@x.com" [⟨1, 3⟩]).1.saleItems ∧
    (deleteProduct (process_sale sampleState "Ann" "Lee" "a@x.com" [⟨1, 3⟩]).1 1).1.sales
      = (process_sale sampleState "Ann" "Lee" "a@x.com" [⟨1, 3⟩]).1.sales :=
  c7_price_snapshot sampleState (process_sale sampleState "Ann" "Lee" "a@x.com" [⟨1, 3⟩]).1
    "Ann" "Lee" "a@x.com" [⟨1, 3⟩] 6 5 1500 1 ⟨none, some 900, none⟩ (by decide)

/-- C2.  Across any sequence of `process_sale` calls, each product's stock
ends at its initial value minus the net quantity of that product persisted in
committed sale items (failed attempts contribute nothing), and — starting
from the non-negative stocks the table constraint guarantees — stock is
non-negative after every prefix of the sequence. -/
theorem c2_stock_conservation (st : DBState) (reqs : List SaleRequest)
    (hnn : ∀ p ∈ st.products, 0 ≤ p.stock) :
    (∀ pid p0 p1, findProduct st.products pid = some p0 →
        findProduct (runSales st reqs).products pid = some p1 →
        p1.stock = p0.stock - (soldQty (runSales st reqs) pid - soldQty st pid)) ∧
    (∀ pre suf, reqs = pre ++ suf →
        ∀ p ∈ (runSales st pre).products, 0 ≤ p.stock) := by
  constructor
  · intro pid p0 p1 h0 h1
    have hnet := runSales_netStock reqs st pid
    rw [netStock, netStock, h0, h1] at hnet
    simp only [Option.map_some'] at hnet
    have hnet' : p1.stock + soldQtyL pid (runSales st reqs).saleItems
        = p0.stock + soldQtyL pid st.saleItems := by
      exact Option.some.inj hnet
    show p1.stock = p0.stock - (soldQtyL pid (runSales st reqs).saleItems
      - soldQtyL pid st.saleItems)
    omega
  · intro pre suf _hsplit p hp
    exact runSales_nonneg pre st hnn p hp

/-- C2 witness: the sample run (one committed sale of three espressos, one
rejected request) instantiates both conjuncts. -/
theorem c2_stock_conservation_witness :
    (∀ pid p0 p1, findProduct sampleState.products pid = some p0 →
        findProduct (runSales sampleState sampleReqs).products pid = some p1 →
        p1.stock = p0.stock
          - (soldQty (runSales sampleState sampleReqs) pid - soldQty sampleState pid)) ∧
    (∀ pre suf, sampleReqs = pre ++ suf →
        ∀ p ∈ (runSales sampleState pre).products, 0 ≤ p.stock) :=
  c2_stock_conservation sampleState sampleReqs (by decide)

/-- C3.  For every sale `process_sale` commits: every persisted line item of
that sale has subtotal equal to quantity times the captured unit price, the
returned total is exactly the sum of those subtotals, and the persisted sale
row's total equals the returned total — all in exact integer cents.  The
freshness hypotheses are the primary-key facts that no existing row already
uses a not-yet-generated identifier. -/
theorem c3_total_correctness (st st' : DBState) (fn ln em : String)
    (items : List SaleItemInput) (sid cid : Nat) (tot : Int)
    (hfreshSales : ∀ s ∈ st.sales, s.id < st.nextId)
    (hfreshItems : ∀ it ∈ st.saleItems, it.saleId < st.nextId)
    (h : process_sale st fn ln em items = (st', .success sid cid tot)) :
    (∀ it ∈ st'.saleItems, it.saleId = sid → it.subtotal = it.quantity * it.unitPrice) ∧
    ((st'.saleItems.filter (fun it => it.saleId == sid)).map SaleItemRow.subtotal).sum = tot ∧
    (∀ s ∈ st'.sales, s.id = sid → s.total = tot) := by
  obtain ⟨stI, stM, hval, hins, hloop, hset, hcid⟩ := process_sale_success_inv h
  obtain ⟨hcI, hpI, hiI, hsI, hnI, hsid⟩ := insertSale_ok hins
  obtain ⟨hcM, hsM, hnM, ⟨newIts, hni, hniP, hniT⟩, hnetM, hnnM⟩ :=
    processItems_spec items stI sid 0 stM tot hloop
  obtain ⟨hcT, hpT, hiT, hnT, hsT⟩ := setSaleTotal_ok hset
  have hsid_ge : st.nextId ≤ sid := by
    rw [hsid]
    exact upsertCustomer_nextId st fn ln em
  have hold : ∀ it ∈ st.saleItems, it.saleId ≠ sid := by
    intro it hit
    have := hfreshItems it hit
    omega
  have hitems' : st'.saleItems = st.saleItems ++ newIts := by
    rw [hiT, hni, hiI, upsertCustomer_saleItems]
  refine ⟨?_, ?_, ?_⟩
  · intro it hit hsidEq
    rw [hitems'] at hit
    rcases List.mem_append.mp hit with hmem | hmem
    · exact absurd hsidEq (hold it hmem)
    · exact (hniP it hmem).2
  · rw [hitems', List.filter_append]
    have hleft : st.saleItems.filter (fun it => it.saleId == sid) = [] := by
      rw [List.filter_eq_nil_iff]
      intro it hit
      simp [hold it hit]
    have hright : newIts.filter (fun it => it.saleId == sid) = newIts := by
      rw [List.filter_eq_self]
      intro it hit
      simp [(hniP it hit).1]
    rw [hleft, hright, List.nil_append]
    rw [hniT]
    simp
  · intro s hs hsEq
    rw [hsT, hsM, hsI, upsertCustomer_sales] at hs
    rw [List.map_append] at hs
    rcases List.mem_append.mp hs with hmem | hmem
    · rw [List.mem_map] at hmem
      obtain ⟨s0, hs0, rfl⟩ := hmem
      have hs0id : s0.id ≠ sid := by
        have := hfreshSales s0 hs0
        omega
      rw [show (if s0.id == sid then { s0 with total := tot } else s0) = s0 from by
        simp [hs0id]] at hsEq ⊢
      exact absurd hsEq hs0id
    · rw [List.mem_map] at hmem
      obtain ⟨s0, hs0, rfl⟩ := hmem
      simp at hs0
      rw [hs0]
      have : ((upsertCustomer st fn ln em).1.nextId == sid) = true := by
        simp [hsid]
      simp [this]

/-- C3 witness: the committed sample sale of three espressos at 5.00 has one
line item with subtotal 15.00, returned total 15.00, and persisted total
15.00. -/
theorem c3_total_correctness_witness :
    (∀ it ∈ (process_sale sampleState "Ann" "Lee" "a@x.com" [⟨1, 3⟩]).1.saleItems,
        it.saleId = 6 → it.subtotal = it.quantity * it.unitPrice) ∧
    (((process_sale sampleState "Ann" "Lee" "a@x.com" [⟨1, 3⟩]).1.saleItems.filter
        (fun it => it.saleId == 6)).map SaleItemRow.subtotal).sum = 1500 ∧
    (∀ s ∈ (process_sale sampleState "Ann" "Lee" "a@x.com" [⟨1, 3⟩]).1.sales,
        s.id = 6 → s.total = 1500) :=
  c3_total_correctness sampleState
    (process_sale sampleState "Ann" "Lee" "a@x.com" [⟨1, 3⟩]).1
    "Ann" "Lee" "a@x.com" [⟨1, 3⟩] 6 5 1500
    (by decide) (by decide) (by decide)

/-- C6.  Email is the customer identity: after two successful sales under
the same email (with at most one matching row initially, as the unique
constraint guarantees), exactly one customer row with that email exists, its
name fields are those of the most recent request, and the processor never
deletes a customer — every pre-existing row survives with its id and
email. -/
theorem c6_customer_idempotency_by_email (st st1 st2 : DBState)
    (fn1 ln1 fn2 ln2 em : String) (items1 items2 : List SaleItemInput)
    (sid1 cid1 sid2 cid2 : Nat) (t1 t2 : Int)
    (huniq : (st.customers.filter (fun c => c.email == em)).length ≤ 1)
    (h1 : process_sale st fn1 ln1 em items1 = (st1, .success sid1 cid1 t1))
    (h2 : process_sale st1 fn2 ln2 em items2 = (st2, .success sid2 cid2 t2)) :
    (st2.customers.filter (fun c => c.email == em)).map
        (fun c => (c.firstName, c.lastName)) = [(fn2, ln2)] ∧
    (∀ c ∈ st.customers, ∃ c2, c2 ∈ st2.customers ∧ c2.id = c.id ∧ c2.email = c.email) := by
  have hU1 : st1.customers = (upsertCustomer st fn1 ln1 em).1.customers :=
    process_sale_success_customers h1
  have hU2 : st2.customers = (upsertCustomer st1 fn2 ln2 em).1.customers :=
    process_sale_success_customers h2
  cases hfind : findCustomerByEmail st em with
  | none =>
    have hc1 : st1.customers = st.customers ++ [⟨st.nextId, fn1, ln1, em⟩] := by
      rw [hU1, upsertCustomer_customers_none hfind]
    have hnone : st.customers.find? (fun c => c.email == em) = none := hfind
    have hfind1 : findCustomerByEmail st1 em = some ⟨st.nextId, fn1, ln1, em⟩ := by
      unfold findCustomerByEmail
      rw [hc1, List.find?_append, hnone]
      simp [List.find?]
    have hc2 : st2.customers = st1.customers.map (renameCustomer fn2 ln2 st.nextId) := by
      rw [hU2, upsertCustomer_customers_some hfind1]
    constructor
    · rw [hc2, filter_email_map _ _ (renameCustomer_email fn2 ln2 _) em, hc1,
        List.filter_append]
      have hl : st.customers.filter (fun c => c.email == em) = [] := by
        rw [List.filter_eq_nil_iff]
        exact List.find?_eq_none.mp hnone
      rw [hl]
      simp [renameCustomer]
    · intro c hc
      refine ⟨renameCustomer fn2 ln2 st.nextId c, ?_, renameCustomer_id _ _ _ _,
        renameCustomer_email _ _ _ _⟩
      rw [hc2, List.mem_map]
      exact ⟨c, by rw [hc1]; exact List.mem_append_left _ hc, rfl⟩
  | some c =>
    have hcem : (c.email == em) = true := by
      have hf : st.customers.find? (fun c0 => c0.email == em) = some c := hfind
      exact @List.find?_some _ (fun c0 => c0.email == em) c st.customers hf
    have hc1 : st1.customers = st.customers.map (renameCustomer fn1 ln1 c.id) := by
      rw [hU1, upsertCustomer_customers_some hfind]
    have hfind1 : findCustomerByEmail st1 em = some (renameCustomer fn1 ln1 c.id c) := by
      unfold findCustomerByEmail at hfind ⊢
      rw [hc1, find_email_map _ _ (renameCustomer_email fn1 ln1 _) em, hfind]
      rfl
    have hrid : (renameCustomer fn1 ln1 c.id c).id = c.id := renameCustomer_id _ _ _ _
    have hc2 : st2.customers
        = st1.customers.map (renameCustomer fn2 ln2 (renameCustomer fn1 ln1 c.id c).id) := by
      rw [hU2, upsertCustomer_customers_some hfind1]
    constructor
    · rw [hc2, hrid, filter_email_map _ _ (renameCustomer_email fn2 ln2 _) em,
        hc1, filter_email_map _ _ (renameCustomer_email fn1 ln1 _) em,
        filter_eq_singleton_of_find? hfind huniq]
      simp [renameCustomer]
    · intro c0 hc0
      refine ⟨renameCustomer fn2 ln2 c.id (renameCustomer fn1 ln1 c.id c0), ?_, ?_, ?_⟩
      · rw [hc2, hrid, List.mem_map]
        exact ⟨renameCustomer fn1 ln1 c.id c0,
          by rw [hc1]; exact List.mem_map_of_mem _ hc0, rfl⟩
      · rw [renameCustomer_id, renameCustomer_id]
      · rw [renameCustomer_email, renameCustomer_email]

/-- C6 witness: a sale by "Ann Lee" then one by "Anne Lee" under a@x.com
leave exactly one a@x.com row, named Anne Lee. -/
theorem c6_customer_idempotency_witness :
    (((process_sale (process_sale sampleState "Ann" "Lee" "a@x.com" [⟨1, 1⟩]).1
          "Anne" "Lee" "a@x.com" [⟨1, 2⟩]).1.customers.filter
        (fun c => c.email == "a@x.com")).map
        (fun c => (c.firstName, c.lastName)) = [("Anne", "Lee")]) ∧
    (∀ c ∈ sampleState.customers, ∃ c2,
        c2 ∈ (process_sale (process_sale sampleState "Ann" "Lee" "a@x.com" [⟨1, 1⟩]).1
          "Anne" "Lee" "a@x.com" [⟨1, 2⟩]).1.customers ∧
        c2.id = c.id ∧ c2.email = c.email) :=
  c6_customer_idempotency_by_email sampleState
    (process_sale sampleState "Ann" "Lee" "a@x.com" [⟨1, 1⟩]).1
    (process_sale (process_sale sampleState "Ann" "Lee" "a@x.com" [⟨1, 1⟩]).1
      "Anne" "Lee" "a@x.com" [⟨1, 2⟩]).1
    "Ann" "Lee" "Anne" "Lee" "a@x.com" [⟨1, 1⟩] [⟨1, 2⟩]
    6 5 8 5 500 1000 (by decide) (by decide) (by decide)

/-- C8 counterexample.  The claim requires every failed call to carry a
machine-distinguishable reason code identifying which business rule failed.
In the code all process_sale-reported failures — product not found, product
inactive, and even the in-function generic transaction failure — map to the
one code BAD_REQUEST; the failing rule is distinguishable only by parsing
the message.  Three concrete failing calls, one per outcome, all carrying
the identical code. -/
theorem c8_no_per_rule_reason_code :
    (createSale ⟨[], [], [], [], 0⟩ ⟨⟨"Ann", "Lee", "a@x.com"⟩, [⟨7, 1⟩]⟩).2
        = .error (AppError.badRequest "Product not found: 7")
      ∧ (createSale ⟨[], [⟨2, "Latte", 700, 5, false⟩], [], [], 0⟩
            ⟨⟨"Ann", "Lee", "a@x.com"⟩, [⟨2, 1⟩]⟩).2
        = .error (AppError.badRequest "Product is not active: Latte")
      ∧ (createSale ⟨[], [⟨1, "Espresso", 500, 3, true⟩], [], [], 0⟩
            ⟨⟨"Ann", "Lee", "a@x.com"⟩, [⟨1, 2⟩, ⟨1, 2⟩]⟩).2
        = .error (AppError.badRequest ("Transaction failed: "
            ++ SqlErr.errm (.checkViolation "products_stock_check")))
      ∧ (AppError.badRequest "Product not found: 7").code
        = (AppError.badRequest "Product is not active: Latte").code
      ∧ (AppError.badRequest "Product is not active: Latte").code
        = (AppError.badRequest ("Transaction failed: "
            ++ SqlErr.errm (.checkViolation "products_stock_check"))).code := by
  decide

/-- C8 amended: every failure reported by the process_sale function —
product not found, product inactive, insufficient stock, and in-function
transaction failures alike — surfaces as a structured AppError with the
single code BAD_REQUEST and status 400, which is distinct from the
INTERNAL_ERROR signal used when the RPC call itself fails; the specific
business rule is identifiable only from the human-readable message. -/
theorem c8_rejection_taxonomy (st st1 : DBState) (inp : CreateSaleInput) (e : AppError)
    (h : createSale st inp = (st1, .error e)) :
    e.statusCode = 400 ∧ e.code = "BAD_REQUEST" ∧
    createSaleRpcFailure.statusCode = 500 ∧ createSaleRpcFailure.code = "INTERNAL_ERROR" ∧
    e.code ≠ createSaleRpcFailure.code := by
  unfold createSale at h
  split at h
  · simp at h
  · rename_i st2 msg heq
    simp at h
    rw [← h.2]
    refine ⟨rfl, rfl, rfl, rfl, ?_⟩
    intro hc
    rw [show (AppError.badRequest msg).code = "BAD_REQUEST" from rfl,
      show createSaleRpcFailure.code = "INTERNAL_ERROR" from rfl] at hc
    exact absurd hc (by decide)

/-- C8 amended witness: the concrete unknown-product rejection carries
BAD_REQUEST 400, distinct from the INTERNAL_ERROR transport signal. -/
theorem c8_rejection_taxonomy_witness :
    (AppError.badRequest "Product not found: 7").statusCode = 400 ∧
    (AppError.badRequest "Product not found: 7").code = "BAD_REQUEST" ∧
    createSaleRpcFailure.statusCode = 500 ∧ createSaleRpcFailure.code = "INTERNAL_ERROR" ∧
    (AppError.badRequest "Product not found: 7").code ≠ createSaleRpcFailure.code :=
  c8_rejection_taxonomy ⟨[], [], [], [], 0⟩ ⟨[⟨0, "Ann", "Lee", "a@x.com"⟩], [], [], [], 1⟩
    ⟨⟨"Ann", "Lee", "a@x.com"⟩, [⟨7, 1⟩]⟩ (AppError.badRequest "Product not found: 7")
    (by decide)

/-- C9.  A sale request with an empty item list, a non-positive or
non-integer quantity, a quantity above 100, or more than 50 items is
rejected by the zod schema in the validation middleware before anything
runs: for every downstream handler the response is the 422 VALIDATION_ERROR
rejection and the store state is returned unchanged, so the sale processor
is never invoked. -/
theorem c9_schema_rejects_malformed {α : Type}
    (handler : DBState → RawCreateSale → DBState × Except AppError α)
    (st : DBState) (raw : RawCreateSale)
    (hbad : raw.items = [] ∨ 50 < raw.items.length ∨
      ∃ it ∈ raw.items, it.quantity ≤ 0 ∨ it.quantity.den ≠ 1 ∨ 100 < it.quantity) :
    validateBody createSaleSchemaOk handler st raw
      = (st, .error (AppError.validation "Validation failed for body")) := by
  have hko : ¬(createSaleSchemaOk raw = true) := by
    unfold createSaleSchemaOk
    rcases hbad with h | h | ⟨it, hit, hcase⟩
    · simp [h]
    · have : ¬(raw.items.length ≤ 50) := by omega
      simp [this]
    · have hitem : ¬(saleItemOk it = true) := by
        unfold saleItemOk
        rcases hcase with h | h | h
        · have : ¬(0 < it.quantity) := not_lt.mpr h
          simp [this]
        · simp [h]
        · have : ¬(it.quantity ≤ 100) := not_le.mpr h
          simp [this]
      simp only [Bool.and_eq_true, List.all_eq_true]
      intro hall
      exact hitem (hall.2 it hit)
  unfold validateBody
  rw [if_neg hko]

/-- C9 witness: a request whose single item asks for quantity 5/2 (a
non-integer) is rejected without touching the store, for a handler that
would otherwise succeed. -/
theorem c9_schema_rejects_malformed_witness :
    validateBody createSaleSchemaOk (fun s _ => (s, Except.ok ())) sampleState
        ⟨⟨"Ann", "Lee", "a@x.com"⟩, [⟨"123e4567-e89b-12d3-a456-426614174000", mkRat 5 2⟩]⟩
      = (sampleState, .error (AppError.validation "Validation failed for body")) :=
  c9_schema_rejects_malformed (fun s _ => (s, Except.ok ())) sampleState
    ⟨⟨"Ann", "Lee", "a@x.com"⟩, [⟨"123e4567-e89b-12d3-a456-426614174000", mkRat 5 2⟩]⟩
    (by
      refine Or.inr (Or.inr ⟨⟨"123e4567-e89b-12d3-a456-426614174000", mkRat 5 2⟩, ?_, ?_⟩)
      · simp
      · refine Or.inr (Or.inl ?_)
        decide)

theorem insertSale_zero (S : DBState) (cid : Nat) :
    insertSale S cid 0
      = .ok ({ S with sales := S.sales ++ [⟨S.nextId, cid, 0⟩], nextId := S.nextId + 1 },
          S.nextId) := rfl

/-- C10.  A request listing the same product in two line items, each
individually within stock but jointly beyond it, passes the validation loop
(each line is checked against the full current stock independently); the
failure only arises in the decrement phase, where the `stock >= 0` CHECK
constraint fires, the generic `Transaction failed` JSON is returned instead
of an insufficient-stock rejection, and the whole transaction — including
the customer upsert — rolls back. -/
theorem c10_duplicate_item_over_stock (st : DBState) (fn ln em : String)
    (p : Product) (q1 q2 : Int)
    (hp : findProduct st.products p.id = some p)
    (hOne : ∀ r ∈ st.products, r.id = p.id → r = p)
    (hact : p.isActive = true)
    (hq1 : 0 < q1) (hq2 : 0 < q2)
    (h1 : q1 ≤ p.stock) (h2 : q2 ≤ p.stock) (hsum : p.stock < q1 + q2)
    (hpr : 0 < p.price)
    (hb1 : decOK (p.price * q1) = true) (hb2 : decOK (p.price * q2) = true)
    (hbt : decOK (p.price * q1 + p.price * q2) = true) :
    validateItems st.products [⟨p.id, q1⟩, ⟨p.id, q2⟩] = none ∧
    process_sale st fn ln em [⟨p.id, q1⟩, ⟨p.id, q2⟩]
      = (st, .failure ("Transaction failed: "
          ++ SqlErr.errm (.checkViolation "products_stock_check"))) := by
  have hns1 : ¬(p.stock < q1) := not_lt.mpr h1
  have hns2 : ¬(p.stock < q2) := not_lt.mpr h2
  have hval : validateItems st.products [⟨p.id, q1⟩, ⟨p.id, q2⟩] = none := by
    simp [validateItems, hp, hact, hns1, hns2]
  have hpmem : p ∈ st.products := List.mem_of_find?_eq_some hp
  have hnq1 : ¬(q1 ≤ 0) := by omega
  have hnq2 : ¬(q2 ≤ 0) := by omega
  have hnpr : ¬(p.price < 0) := by omega
  have hnsub1 : ¬(p.price * q1 < 0) := not_lt.mpr (mul_nonneg (by omega) (by omega))
  have hnsub2 : ¬(p.price * q2 < 0) := not_lt.mpr (mul_nonneg (by omega) (by omega))
  have hany1 : (st.products.any fun r => r.id == p.id && decide (r.stock - q1 < 0))
      = false := by
    rw [List.any_eq_false]
    intro r hr
    by_cases hid : r.id = p.id
    · rw [hOne r hr hid]
      simp
      omega
    · simp [hid]
  have hany2 : ((st.products.map
        (fun r => if r.id == p.id then { r with stock := r.stock - q1 } else r)).any
      fun r => r.id == p.id && decide (r.stock - q2 < 0)) = true := by
    rw [List.any_eq_true]
    refine ⟨(fun r => if r.id == p.id then { r with stock := r.stock - q1 } else r) p,
      List.mem_map_of_mem _ hpmem, ?_⟩
    simp
    omega
  have hfp2 : findProduct (st.products.map
        (fun r => if r.id == p.id then { r with stock := r.stock - q1 } else r)) p.id
      = some { p with stock := p.stock - q1 } := by
    rw [findProduct_map_adjust _ _ (fun r => by by_cases h : r.id == p.id <;> simp [h]), hp]
    simp
  have hloopFail : ∀ S : DBState, S.products = st.products → ∀ sid : Nat,
      processItems S sid 0 [⟨p.id, q1⟩, ⟨p.id, q2⟩]
        = .error (.checkViolation "products_stock_check") := by
    intro S hS sid
    simp only [processItems, insertSaleItem, updateStock, hS, hp, hfp2, hb1, hb2,
      zero_add, hbt, hnq1, hnq2, hnpr, hnsub1, hnsub2, hany1, hany2,
      Bool.not_true, Bool.false_eq_true, if_false, if_true]
  refine ⟨hval, ?_⟩
  have hbody : processSaleBody st fn ln em [⟨p.id, q1⟩, ⟨p.id, q2⟩]
      = .error (.checkViolation "products_stock_check") := by
    unfold processSaleBody
    have hvalU : validateItems (upsertCustomer st fn ln em).1.products
        [⟨p.id, q1⟩, ⟨p.id, q2⟩] = none := by
      rw [upsertCustomer_products]
      exact hval
    simp only [hvalU, insertSale_zero]
    rw [hloopFail
      { customers := (upsertCustomer st fn ln em).1.customers,
        products := (upsertCustomer st fn ln em).1.products,
        sales := (upsertCustomer st fn ln em).1.sales
          ++ [⟨(upsertCustomer st fn ln em).1.nextId, (upsertCustomer st fn ln em).2, 0⟩],
        saleItems := (upsertCustomer st fn ln em).1.saleItems,
        nextId := (upsertCustomer st fn ln em).1.nextId + 1 }
      (upsertCustomer_products st fn ln em)
      (upsertCustomer st fn ln em).1.nextId]
  unfold process_sale
  rw [hbody]

/-- C10 witness: stock 3 and two line items of quantity 2 for the same
product: validation passes, the call fails with the generic transaction
failure, and the store — customer table included — is exactly as before. -/
theorem c10_duplicate_item_over_stock_witness :
    validateItems [⟨1, "Espresso", 500, 3, true⟩] [⟨1, 2⟩, ⟨1, 2⟩] = none ∧
    process_sale ⟨[], [⟨1, "Espresso", 500, 3, true⟩], [], [], 0⟩ "Ann" "Lee" "a@x.com"
        [⟨1, 2⟩, ⟨1, 2⟩]
      = (⟨[], [⟨1, "Espresso", 500, 3, true⟩], [], [], 0⟩,
          .failure ("Transaction failed: "
            ++ SqlErr.errm (.checkViolation "products_stock_check"))) :=
  c10_duplicate_item_over_stock ⟨[], [⟨1, "Espresso", 500, 3, true⟩], [], [], 0⟩
    "Ann" "Lee" "a@x.com" ⟨1, "Espresso", 500, 3, true⟩ 2 2
    (by decide) (by decide) (by decide) (by decide) (by decide) (by decide) (by decide)
    (by decide) (by decide) (by decide) (by decide) (by decide)

end CoffeeShop
